import Mathlib

set_option autoImplicit false

/-!
Shallow embedding of the m-lab/gcp-service-discovery repository.

Each Go package is embedded as a Lean namespace; Go structs become Lean
structures, Go slices become lists, Go maps become association lists (only
their content matters), and fallible Go functions return the error as an
`Option String` (Go `error`) next to their updated state.  Paginated cloud
API listings are embedded as lists of pages plus an optional upfront error,
matching the fake API implementations used by the repository's own tests.
-/

deriving instance DecidableEq for Except

namespace discovery

/-- discovery.StaticConfig: a set of targets and associated labels.
`Targets` is a list of `host:port` strings; `Labels` is a Go
`map[string]string`, embedded as an association list of key/value pairs. -/
structure StaticConfig where
  targets : List String
  labels : List (String × String)
  deriving DecidableEq

end discovery

namespace aeflex

/-- appengine.Instance, restricted to the fields read by the aeflex package. -/
structure Instance where
  id : String
  vmIp : String
  vmStatus : String
  vmDebugEnabled : Bool
  deriving DecidableEq

/-- appengine.Network: only ForwardedPorts is read. -/
structure Network where
  forwardedPorts : List String
  deriving DecidableEq

/-- appengine.AutomaticScaling: only MaxTotalInstances is read. -/
structure AutomaticScaling where
  maxTotalInstances : Int
  deriving DecidableEq

/-- appengine.ManualScaling: only Instances is read. -/
structure ManualScaling where
  instances : Int
  deriving DecidableEq

/-- appengine.Version, restricted to the fields read by the aeflex package.
Nil Go pointers are embedded as `none`. -/
structure Version where
  id : String
  servingStatus : String
  network : Option Network
  automaticScaling : Option AutomaticScaling
  manualScaling : Option ManualScaling
  deriving DecidableEq

/-- appengine.TrafficSplit: the code only tests key membership in the
Allocations map, so only the key set is embedded. -/
structure TrafficSplit where
  allocations : List String
  deriving DecidableEq

/-- appengine.Service, restricted to the fields read by the aeflex package. -/
structure Service where
  id : String
  split : TrafficSplit
  deriving DecidableEq

def aefLabel : String := "__aef_"

def aefLabelProject : String := aefLabel ++ "project"

def aefLabelService : String := aefLabel ++ "service"

def aefLabelVersion : String := aefLabel ++ "version"

def aefLabelInstance : String := aefLabel ++ "instance"

def aefLabelPublicProto : String := aefLabel ++ "public_protocol"

def aefMaxTotalInstances : String := aefLabel ++ "max_total_instances"

def aefVMDebugEnabled : String := aefLabel ++ "vm_debug_enabled"

/-- Embedding of Go `regexp.MustCompile("([0-9]+)(/.*)").ReplaceAllString(s, "$1")`
over the character list of `s`.  The engine scans left to right; `run` holds
the digit run currently being read, in reverse.  The first maximal digit run
followed directly by `'/'` matches, the greedy `.*` consumes the rest of the
string, and the whole match is replaced by the digit run. -/
def replacePortAux (run : List Char) : List Char → List Char
  | [] => run.reverse
  | c :: rest =>
    if c.isDigit then replacePortAux (c :: run) rest
    else if c == '/' && !run.isEmpty then run.reverse
    else run.reverse ++ c :: replacePortAux [] rest

/-- The port extraction applied by aeflex.Service.getLabels to the first
forwarded port entry. -/
def extractPort (s : String) : String :=
  ⟨replacePortAux [] s.data⟩

/-- Embedding of Go strings.HasSuffix. -/
def goHasSuffix (s suf : String) : Bool :=
  decide (suf.data <:+ s.data)

/-- aeflex.Service.getLabels: builds one StaticConfig for an instance.  The Go
code reads `version.Network.ForwardedPorts[0]` under the caller's guarantee
that the network is non-nil and lists at least one forwarded port; the guarded
access is totalised here with the empty string. -/
def getLabels (project : String) (service : Service) (version : Version)
    (inst : Instance) : discovery.StaticConfig :=
  let instances : Int :=
    match version.automaticScaling with
    | some a => a.maxTotalInstances
    | none =>
      match version.manualScaling with
      | some m => m.instances
      | none => 0
  let fp0 : String := ((version.network.map Network.forwardedPorts).getD []).headD ""
  let proto : String :=
    if goHasSuffix fp0 "/udp" then "udp"
    else if goHasSuffix fp0 "/tcp" then "tcp"
    else "both"
  { targets := [inst.vmIp ++ ":" ++ extractPort fp0]
    labels := [
      (aefLabelProject, project),
      (aefLabelService, service.id),
      (aefLabelVersion, version.id),
      (aefLabelInstance, inst.id),
      (aefMaxTotalInstances, toString instances),
      (aefVMDebugEnabled, if inst.vmDebugEnabled then "true" else "false"),
      (aefLabelPublicProto, proto)] }

/-- aeflex.Service.handleInstances: filters one page of instances, returning
the number of monitorable VMs found and the updated targets list.  When
`shouldMonitor` is false the targets list is left unmodified.  The Go
function always returns a nil error, so no error component is embedded. -/
def handleInstances (project : String) (service : Service) (version : Version)
    (shouldMonitor : Bool) :
    List Instance → List discovery.StaticConfig → Nat × List discovery.StaticConfig
  | [], targets => (0, targets)
  | inst :: rest, targets =>
    if inst.vmIp = "" then
      handleInstances project service version shouldMonitor rest targets
    else if inst.vmStatus ≠ "RUNNING" then
      handleInstances project service version shouldMonitor rest targets
    else
      match version.network with
      | none => handleInstances project service version shouldMonitor rest targets
      | some nw =>
        if nw.forwardedPorts = [] then
          handleInstances project service version shouldMonitor rest targets
        else
          let targets' :=
            if shouldMonitor then targets ++ [getLabels project service version inst]
            else targets
          let (n, t) := handleInstances project service version shouldMonitor rest targets'
          (n + 1, t)

/-- The paginated AppEngine Admin API seen through aeflex/iface.AppAPI: a list
of pages per listing, plus an optional upfront error per listing, exactly like
the fake AppAPI used by the repository's tests. -/
structure AppAPI where
  servicePages : List (List Service)
  servicesErr : Option String
  versionPages : String → List (List Version)
  versionsErr : String → Option String
  instancePages : String → String → List (List Instance)
  instancesErr : String → String → Option String

/-- One `Pages` loop: feed each page to the callback, stopping at the first
callback error. -/
def runPagesGo {π σ : Type} (f : π → σ → σ × Option String) :
    List π → σ → σ × Option String
  | [], s => (s, none)
  | p :: rest, s =>
    match f p s with
    | (s', none) => runPagesGo f rest s'
    | (s', some e) => (s', some e)

/-- A `Pages` call: an upfront API error is returned before any page is
processed; otherwise the callback folds over the pages. -/
def runPages {π σ : Type} (err : Option String) (pages : List π)
    (f : π → σ → σ × Option String) (s : σ) : σ × Option String :=
  match err with
  | some e => (s, some e)
  | none => runPagesGo f pages s

/-- The per-service traversal state: the service-level `targets` field of
aeflex.Service together with the `active`/`inactive` counters of
discoverVersions. -/
structure DiscState where
  targets : List discovery.StaticConfig
  active : Nat
  inactive : Nat
  deriving DecidableEq

/-- The callback handed to InstancesPages inside aeflex.Service.handleVersions:
run handleInstances on the page and add the found count to the `active` or the
`inactive` counter according to the traffic-split membership. -/
def instPageStep (project : String) (service : Service) (version : Version)
    (shouldMonitor : Bool) (page : List Instance) (st : DiscState) :
    DiscState × Option String :=
  let (found, tgts) :=
    handleInstances project service version shouldMonitor page st.targets
  ({ targets := tgts
     active := if shouldMonitor then st.active + found else st.active
     inactive := if shouldMonitor then st.inactive else st.inactive + found },
   none)

/-- The body of the version loop in aeflex.Service.handleVersions for a single
version: non-SERVING versions are skipped; otherwise the version's instances
are listed page by page, counted into `active` or `inactive` according to
whether the version id is present in the service's traffic-split allocation
map, and appended to targets only when it is. -/
def processVersion (project : String) (api : AppAPI) (service : Service)
    (version : Version) (st : DiscState) : DiscState × Option String :=
  if version.servingStatus ≠ "SERVING" then (st, none)
  else
    let shouldMonitor := service.split.allocations.contains version.id
    runPages (api.instancesErr service.id version.id)
      (api.instancePages service.id version.id)
      (instPageStep project service version shouldMonitor)
      st

/-- aeflex.Service.handleVersions over one page of versions: the first error
from a version's instance listing aborts the loop. -/
def handleVersions (project : String) (api : AppAPI) (service : Service) :
    List Version → DiscState → DiscState × Option String
  | [], st => (st, none)
  | v :: rest, st =>
    match processVersion project api service v st with
    | (st', none) => handleVersions project api service rest st'
    | (st', some e) => (st', some e)

/-- aeflex.Service.discoverVersions: pages through the versions of one
service, with fresh active/inactive counters. -/
def discoverVersions (project : String) (api : AppAPI) (service : Service)
    (targets : List discovery.StaticConfig) : DiscState × Option String :=
  runPages (api.versionsErr service.id) (api.versionPages service.id)
    (handleVersions project api service)
    { targets := targets, active := 0, inactive := 0 }

/-- The service loop inside one services page of aeflex.Service.Discover. -/
def servicesGo (project : String) (api : AppAPI) :
    List Service → List discovery.StaticConfig →
    List discovery.StaticConfig × Option String
  | [], tgts => (tgts, none)
  | svc :: rest, tgts =>
    match discoverVersions project api svc tgts with
    | (st, none) => servicesGo project api rest st.targets
    | (st, some e) => (st.targets, some e)

/-- aeflex.Service.Discover.  The first component is the `targets` field of
the Service struct after the call (the Go method never resets it before
traversing: it only appends); the second is the Go return value, where on a
nil error the accumulated `source.targets` slice is returned. -/
def Discover (project : String) (api : AppAPI)
    (targets0 : List discovery.StaticConfig) :
    List discovery.StaticConfig × Except String (List discovery.StaticConfig) :=
  match runPages api.servicesErr api.servicePages (servicesGo project api) targets0 with
  | (tgts, none) => (tgts, Except.ok tgts)
  | (tgts, some e) => (tgts, Except.error e)

/-- The inventory of the repository's own "success-manual-scaling-udp-port"
test case, reduced to its single eligible instance. -/
def demoService : Service :=
  { id := "fake-service-name"
    split := { allocations := ["20181027t210126-active"] } }

def demoVersion : Version :=
  { id := "20181027t210126-active"
    servingStatus := "SERVING"
    network := some { forwardedPorts := ["9090/udp"] }
    automaticScaling := none
    manualScaling := some { instances := 1 } }

def demoInstance : Instance :=
  { id := "aef-etl--sidestream--parser-20181027t210126-x2qh"
    vmIp := "192.168.0.2"
    vmStatus := "RUNNING"
    vmDebugEnabled := false }

def demoAPI : AppAPI :=
  { servicePages := [[demoService]]
    servicesErr := none
    versionPages := fun _ => [[demoVersion]]
    versionsErr := fun _ => none
    instancePages := fun _ _ => [[demoInstance]]
    instancesErr := fun _ _ => none }

/-- The single record the repository's test expects from this inventory. -/
def demoConfig : discovery.StaticConfig :=
  { targets := ["192.168.0.2:9090"]
    labels := [
      (aefLabelProject, "fake-project"),
      (aefLabelService, "fake-service-name"),
      (aefLabelVersion, "20181027t210126-active"),
      (aefLabelInstance, "aef-etl--sidestream--parser-20181027t210126-x2qh"),
      (aefMaxTotalInstances, "1"),
      (aefVMDebugEnabled, "false"),
      (aefLabelPublicProto, "udp")] }

/-- The instance-level eligibility checks of handleInstances, as one
predicate: non-empty VM IP, RUNNING status, non-null network, and at least one
forwarded port. -/
def instanceEligible (version : Version) (inst : Instance) : Bool :=
  inst.vmIp != "" && inst.vmStatus == "RUNNING" &&
    (match version.network with
     | none => false
     | some nw => !nw.forwardedPorts.isEmpty)

/-- A SERVING version whose id is not in demoService's allocation map. -/
def demoStrandedVersion : Version :=
  { id := "20181027t210126-stranded"
    servingStatus := "SERVING"
    network := some { forwardedPorts := ["9090/udp"] }
    automaticScaling := none
    manualScaling := some { instances := 1 } }

/-- An instance skipped by handleInstances because its VM IP is empty. -/
def demoNoIPInstance : Instance :=
  { id := "aef-etl--sidestream--parser-20181027t210126-x2qi"
    vmIp := ""
    vmStatus := "RUNNING"
    vmDebugEnabled := false }

end aeflex

namespace gke

/-- k8s ServicePort: only the Port number (an int32) is read. -/
structure ServicePort where
  port : Int
  deriving DecidableEq

/-- k8s LoadBalancerIngress: only the IP is read. -/
structure LoadBalancerIngress where
  ip : String
  deriving DecidableEq

/-- k8s Service, restricted to the fields read by gke's checkCluster and
findTargetAndLabels: the metadata name and annotations, the spec's external
IPs and ports, and the load-balancer ingress entries of the status. -/
structure KubeService where
  name : String
  annotations : List (String × String)
  externalIPs : List String
  ports : List ServicePort
  ingress : List LoadBalancerIngress
  deriving DecidableEq

/-- Go map indexing with the string zero value: an absent annotation key
reads as the empty string. -/
def annotGet (svc : KubeService) (key : String) : String :=
  (svc.annotations.lookup key).getD ""

/-- A Go runtime fault, which aborts the process instead of returning an
error value. -/
inductive Fault where
  | indexOutOfRange : Fault
  deriving DecidableEq

/-- The target string computed by gke's findTargetAndLabels: the external-IP
branch is guarded by length checks on both ExternalIPs and Ports, but the
ingress branch reads Spec.Ports[0] with no length guard, so an empty ports
list is a runtime index-out-of-range fault there. -/
def resolveTarget (svc : KubeService) : Except Fault String :=
  if svc.externalIPs.length > 0 && svc.ports.length > 0 then
    match svc.externalIPs.head?, svc.ports.head? with
    | some ip, some p => Except.ok (ip ++ ":" ++ toString p.port)
    | _, _ => Except.error Fault.indexOutOfRange
  else if svc.ingress.length > 0 then
    match svc.ingress.head?, svc.ports.head? with
    | some ing, some p => Except.ok (ing.ip ++ ":" ++ toString p.port)
    | _, _ => Except.error Fault.indexOutOfRange
  else Except.ok ""

/-- gke's findTargetAndLabels: resolve the target address; an empty target
means the service yields no configuration. -/
def findTargetAndLabels (zoneName clusterName : String) (svc : KubeService) :
    Except Fault (Option discovery.StaticConfig) :=
  match resolveTarget svc with
  | Except.error f => Except.error f
  | Except.ok target =>
    if target = "" then Except.ok none
    else Except.ok (some
      { targets := [target]
        labels := [("service", svc.name), ("cluster", clusterName), ("zone", zoneName)] })

/-- The service loop of gke's checkCluster: only services whose
"gke-prometheus-federation/scrape" annotation is exactly "true" are
considered; a nil result is skipped, a non-nil result is appended. -/
def checkClusterGo (zoneName clusterName : String) :
    List KubeService → List discovery.StaticConfig →
    Except Fault (List discovery.StaticConfig)
  | [], configs => Except.ok configs
  | svc :: rest, configs =>
    if annotGet svc "gke-prometheus-federation/scrape" ≠ "true" then
      checkClusterGo zoneName clusterName rest configs
    else
      match findTargetAndLabels zoneName clusterName svc with
      | Except.error f => Except.error f
      | Except.ok none => checkClusterGo zoneName clusterName rest configs
      | Except.ok (some t) => checkClusterGo zoneName clusterName rest (configs ++ [t])

/-- A Go call result: a value, a returned error, or a runtime fault. -/
inductive GoRes (α : Type) where
  | ok : α → GoRes α
  | goError : String → GoRes α
  | fault : Fault → GoRes α
  deriving DecidableEq

/-- gke's checkCluster: an error from listing the cluster's services is
returned; otherwise each listed service is checked in order. -/
def checkCluster (listResult : Except String (List KubeService))
    (zoneName clusterName : String) : GoRes (List discovery.StaticConfig) :=
  match listResult with
  | Except.error e => GoRes.goError e
  | Except.ok services =>
    match checkClusterGo zoneName clusterName services [] with
    | Except.error f => GoRes.fault f
    | Except.ok configs => GoRes.ok configs

/-- The annotated service of the repository's gke test, with an extra
load-balancer ingress entry to witness the address-resolution priority. -/
def demoExternalIPService : KubeService :=
  { name := "fake-service"
    annotations := [("gke-prometheus-federation/scrape", "true")]
    externalIPs := ["192.168.1.1"]
    ports := [{ port := 1122 }]
    ingress := [{ ip := "10.9.9.9" }] }

/-- A service that opts out of federation scraping. -/
def demoOptOutService : KubeService :=
  { name := "fake-opt-out"
    annotations := [("gke-prometheus-federation/scrape", "false")]
    externalIPs := ["192.168.1.2"]
    ports := [{ port := 1122 }]
    ingress := [] }

/-- An annotated service with a load-balancer ingress entry but an empty
ports list: the input on which the ingress branch reads Ports[0] out of
bounds. -/
def demoIngressNoPortsService : KubeService :=
  { name := "fake-lb-service"
    annotations := [("gke-prometheus-federation/scrape", "true")]
    externalIPs := []
    ports := []
    ingress := [{ ip := "10.0.0.1" }] }

/-- An annotated service with no external IP, no ports and no ingress: it
resolves to no target at all. -/
def demoEmptyService : KubeService :=
  { name := "fake-empty"
    annotations := [("gke-prometheus-federation/scrape", "true")]
    externalIPs := []
    ports := []
    ingress := [] }

end gke

namespace web

/-- One HTTP GET as seen by web.Service.Discover: either a transport error or
a response carrying the status code and a body whose read can itself fail.
The body bytes are kept abstract as a String. -/
structure HTTPResponse where
  statusCode : Nat
  body : Except String String
  deriving DecidableEq

/-- The distinct error exits of web.Service.Discover. -/
inductive WebErr where
  | transport : String → WebErr
  | badStatus : Nat → WebErr
  | readFail : String → WebErr
  | badJSON : String → WebErr
  deriving DecidableEq

/-- web.Service.Discover: fetch the configured URL, require HTTP 200, read
the body, and strictly decode it as a JSON array of StaticConfig.
`unmarshal` stands for the external json.Unmarshal into
[]discovery.StaticConfig. -/
def Discover (fetch : Except String HTTPResponse)
    (unmarshal : String → Except String (List discovery.StaticConfig)) :
    Except WebErr (List discovery.StaticConfig) :=
  match fetch with
  | Except.error e => Except.error (WebErr.transport e)
  | Except.ok resp =>
    if resp.statusCode ≠ 200 then Except.error (WebErr.badStatus resp.statusCode)
    else
      match resp.body with
      | Except.error e => Except.error (WebErr.readFail e)
      | Except.ok data =>
        match unmarshal data with
        | Except.error e => Except.error (WebErr.badJSON e)
        | Except.ok configs => Except.ok configs

end web

namespace manager

/-- One registered (provider, destination) pair at one tick of Manager.Run:
the outcome the provider's Discover returns during this pass, and the
destination filename registered with it. -/
structure Registration where
  discover : Except String (List discovery.StaticConfig)
  output : String

/-- The on-disk state of the destination files. -/
def FS : Type := String → Option String

/-- writeConfigToFile (identical in discovery/manager.go and
manager/manager.go): marshal the configs and atomically write them to the
named file.  `marshal` stands for json.MarshalIndent and `writable` models
whether safefile.WriteFile succeeds for the path; on failure the previous
file content is untouched, since safefile stages the write. -/
def writeConfigToFile (marshal : List discovery.StaticConfig → String)
    (writable : String → Bool) (configs : List discovery.StaticConfig)
    (filename : String) (fs : FS) : FS × Option String :=
  if writable filename then
    (fun f => if f = filename then some (marshal configs) else fs f, none)
  else (fs, some "write failed")

/-- The per-tick provider loop of Manager.Run: a Discover error is logged and
skips the write for that registration; a write error is logged; either way
the loop continues with the next registration. -/
def runOnce (marshal : List discovery.StaticConfig → String)
    (writable : String → Bool) : List Registration → FS → FS
  | [], fs => fs
  | r :: rest, fs =>
    match r.discover with
    | Except.error _ => runOnce marshal writable rest fs
    | Except.ok configs =>
      runOnce marshal writable rest
        (writeConfigToFile marshal writable configs r.output fs).1

/-- A registration whose provider fails this tick. -/
def demoFailReg : Registration :=
  { discover := Except.error "Failed to discover", output := "fail.json" }

/-- A registration whose provider succeeds this tick. -/
def demoOkReg : Registration :=
  { discover := Except.ok [], output := "ok.json" }

/-- The observable events of the Manager.Run loop: one event per provider
invocation and one event per interval wait. -/
inductive MgrEvent where
  | discovered : Nat → MgrEvent
  | waited : MgrEvent
  deriving DecidableEq

/-- One complete pass over `n` registered providers, in registration order. -/
def passEvents (n : Nat) : List MgrEvent :=
  (List.range n).map MgrEvent.discovered

/-- The event trace of Manager.Run with `n` registered providers when the
select at the bottom of the loop receives the interval tick `ticks` times
before the context is cancelled: the loop body always runs a full pass first
and only then blocks on the select. -/
def runTrace (n : Nat) : Nat → List MgrEvent
  | 0 => passEvents n
  | ticks + 1 => passEvents n ++ MgrEvent.waited :: runTrace n ticks

end manager

/-- Claim C1: running Discover twice on the same provider instance against an
unchanged upstream inventory must return identical TargetRecord sequences and
never an accumulation over previous calls.  The AppEngine-Flex provider
violates this: Service.Discover never resets the Service's `targets` field, so
on an inventory with one eligible instance the first call returns one record
and the second call on the same instance returns that record twice — the
repository's own test calls Discover twice and asserts equal results. -/
theorem aeflex_discover_accumulates_targets :
    (aeflex.Discover "fake-project" aeflex.demoAPI []).2 =
      Except.ok [aeflex.demoConfig] ∧
    (aeflex.Discover "fake-project" aeflex.demoAPI
        (aeflex.Discover "fake-project" aeflex.demoAPI []).1).2 =
      Except.ok [aeflex.demoConfig, aeflex.demoConfig] ∧
    (aeflex.Discover "fake-project" aeflex.demoAPI
        (aeflex.Discover "fake-project" aeflex.demoAPI []).1).2 ≠
      (aeflex.Discover "fake-project" aeflex.demoAPI []).2 := by
  refine ⟨rfl, rfl, fun h => ?_⟩
  have h2 : [aeflex.demoConfig, aeflex.demoConfig] = [aeflex.demoConfig] :=
    Except.ok.inj h
  exact absurd h2 (by decide)

/-- handleInstances never emits and counts exactly the eligible instances when
the version is not monitored. -/
theorem handleInstances_not_monitored (project : String) (service : aeflex.Service)
    (version : aeflex.Version) :
    ∀ (page : List aeflex.Instance) (targets : List discovery.StaticConfig),
      aeflex.handleInstances project service version false page targets =
        ((page.filter (fun i => aeflex.instanceEligible version i)).length, targets) := by
  intro page
  induction page with
  | nil => intro targets; simp [aeflex.handleInstances]
  | cons inst rest ih =>
    intro targets
    by_cases h1 : inst.vmIp = ""
    · simp [aeflex.handleInstances, aeflex.instanceEligible, h1, ih]
    · by_cases h2 : inst.vmStatus = "RUNNING"
      · cases hnet : version.network with
        | none =>
          simp [aeflex.handleInstances, aeflex.instanceEligible, h1, h2, hnet, ih]
        | some nw =>
          by_cases h3 : nw.forwardedPorts = []
          · simp [aeflex.handleInstances, aeflex.instanceEligible, h1, h2, hnet, h3, ih]
          · simp [aeflex.handleInstances, aeflex.instanceEligible, h1, h2, hnet, h3, ih]
      · simp [aeflex.handleInstances, aeflex.instanceEligible, h1, h2, ih]

/-- Folding instPageStep for an unmonitored version over any pages adds the
eligible counts to `inactive` and leaves `targets` and `active` untouched. -/
theorem runPagesGo_not_monitored (project : String) (service : aeflex.Service)
    (version : aeflex.Version) :
    ∀ (pages : List (List aeflex.Instance)) (st : aeflex.DiscState),
      aeflex.runPagesGo (aeflex.instPageStep project service version false) pages st =
        ({ st with inactive := st.inactive +
            (pages.map (fun page =>
              (page.filter (fun i => aeflex.instanceEligible version i)).length)).sum },
         none) := by
  intro pages
  induction pages with
  | nil => intro st; simp [aeflex.runPagesGo]
  | cons page rest ih =>
    intro st
    simp only [aeflex.runPagesGo, aeflex.instPageStep,
      handleInstances_not_monitored, ih, List.map_cons, List.sum_cons]
    simp [Nat.add_assoc]

/-- Claim C3: for every AppEngine version with ServingStatus "SERVING" whose id
is absent from the owning service's traffic-split allocation map, processing
that version counts its eligible instances into the inactive counter but never
appends a TargetRecord, and leaves the active counter untouched. -/
theorem aeflex_unallocated_version_counted_not_emitted
    (project : String) (api : aeflex.AppAPI) (service : aeflex.Service)
    (version : aeflex.Version) (st : aeflex.DiscState)
    (hserv : version.servingStatus = "SERVING")
    (halloc : service.split.allocations.contains version.id = false) :
    (aeflex.processVersion project api service version st).1.targets = st.targets ∧
    (aeflex.processVersion project api service version st).1.active = st.active ∧
    (api.instancesErr service.id version.id = none →
      (aeflex.processVersion project api service version st).1.inactive =
        st.inactive + ((api.instancePages service.id version.id).map
          (fun page =>
            (page.filter (fun i => aeflex.instanceEligible version i)).length)).sum) := by
  simp only [aeflex.processVersion, hserv, halloc]
  cases herr : api.instancesErr service.id version.id with
  | some e =>
    simp [aeflex.runPages, herr]
  | none =>
    simp [aeflex.runPages, herr, runPagesGo_not_monitored]

/-- Witness for C3 at a concrete SERVING version outside the allocation map:
one eligible instance is counted as inactive, nothing is emitted. -/
theorem aeflex_unallocated_version_counted_not_emitted_witness :
    (aeflex.processVersion "fake-project" aeflex.demoAPI aeflex.demoService
      aeflex.demoStrandedVersion { targets := [], active := 0, inactive := 0 }).1.targets = [] ∧
    (aeflex.processVersion "fake-project" aeflex.demoAPI aeflex.demoService
      aeflex.demoStrandedVersion { targets := [], active := 0, inactive := 0 }).1.active = 0 ∧
    (aeflex.processVersion "fake-project" aeflex.demoAPI aeflex.demoService
      aeflex.demoStrandedVersion { targets := [], active := 0, inactive := 0 }).1.inactive = 1 := by
  have h := aeflex_unallocated_version_counted_not_emitted "fake-project" aeflex.demoAPI
    aeflex.demoService aeflex.demoStrandedVersion
    { targets := [], active := 0, inactive := 0 } rfl (by decide)
  refine ⟨h.1, h.2.1, ?_⟩
  have h3 := h.2.2 rfl
  simpa using h3

/-- Claim C4: an instance with an empty VM IP, a non-RUNNING status, a null
version network, or an empty forwarded-ports list is skipped by
handleInstances — no TargetRecord is emitted for it and it is not counted —
regardless of the monitoring decision made from serving status and traffic
allocation. -/
theorem aeflex_ineligible_instance_not_emitted
    (project : String) (service : aeflex.Service) (version : aeflex.Version)
    (shouldMonitor : Bool) (inst : aeflex.Instance) (rest : List aeflex.Instance)
    (targets : List discovery.StaticConfig)
    (h : inst.vmIp = "" ∨ inst.vmStatus ≠ "RUNNING" ∨ version.network = none ∨
      version.network.map aeflex.Network.forwardedPorts = some []) :
    aeflex.handleInstances project service version shouldMonitor (inst :: rest) targets =
      aeflex.handleInstances project service version shouldMonitor rest targets := by
  rcases h with h | h | h | h
  · simp [aeflex.handleInstances, h]
  · by_cases h1 : inst.vmIp = ""
    · simp [aeflex.handleInstances, h1]
    · simp [aeflex.handleInstances, h1, h]
  · by_cases h1 : inst.vmIp = ""
    · simp [aeflex.handleInstances, h1]
    · by_cases h2 : inst.vmStatus = "RUNNING"
      · simp [aeflex.handleInstances, h1, h2, h]
      · simp [aeflex.handleInstances, h1, h2]
  · obtain ⟨nw, hnw, hports⟩ : ∃ nw, version.network = some nw ∧ nw.forwardedPorts = [] := by
      cases hv : version.network with
      | none => rw [hv] at h; simp at h
      | some nw =>
        rw [hv] at h
        exact ⟨nw, rfl, by simpa using h⟩
    by_cases h1 : inst.vmIp = ""
    · simp [aeflex.handleInstances, h1]
    · by_cases h2 : inst.vmStatus = "RUNNING"
      · simp [aeflex.handleInstances, h1, h2, hnw, hports]
      · simp [aeflex.handleInstances, h1, h2]

/-- Witness for C4 at a concrete instance with an empty VM IP: the page
containing only that instance yields no count and no target. -/
theorem aeflex_ineligible_instance_not_emitted_witness :
    aeflex.handleInstances "fake-project" aeflex.demoService aeflex.demoVersion true
      [aeflex.demoNoIPInstance] [] = (0, []) := by
  have h := aeflex_ineligible_instance_not_emitted "fake-project" aeflex.demoService
    aeflex.demoVersion true aeflex.demoNoIPInstance [] [] (Or.inl rfl)
  exact h.trans rfl

/-- The port-regex replacement leaves an all-digits entry unchanged. -/
theorem replacePortAux_all_digits :
    ∀ ds : List Char, (∀ c ∈ ds, c.isDigit) →
      ∀ run : List Char, aeflex.replacePortAux run ds = run.reverse ++ ds := by
  intro ds
  induction ds with
  | nil => intro _ run; simp [aeflex.replacePortAux]
  | cons c rest ih =>
    intro hds run
    have hc : c.isDigit := hds c (by simp)
    simp only [aeflex.replacePortAux, hc, if_true]
    rw [ih (fun x hx => hds x (by simp [hx])) (c :: run)]
    simp

/-- The port-regex replacement maps digits-then-slash-then-anything to the
digits. -/
theorem replacePortAux_digits_slash (ts : List Char) :
    ∀ ds : List Char, (∀ c ∈ ds, c.isDigit) →
      ∀ run : List Char, run ≠ [] ∨ ds ≠ [] →
        aeflex.replacePortAux run (ds ++ '/' :: ts) = run.reverse ++ ds := by
  intro ds
  induction ds with
  | nil =>
    intro _ run hne
    have hrun : run ≠ [] := hne.resolve_right (fun h => h rfl)
    have hempty : run.isEmpty = false := by
      cases run with
      | nil => exact absurd rfl hrun
      | cons a l => rfl
    simp [aeflex.replacePortAux, hempty]
  | cons c rest ih =>
    intro hds run _
    have hc : c.isDigit := hds c (by simp)
    simp only [List.cons_append, aeflex.replacePortAux, hc, if_true, List.append_eq]
    rw [ih (fun x hx => hds x (by simp [hx])) (c :: run) (Or.inl (by simp))]
    simp

/-- extractPort on an all-digits entry is the identity. -/
theorem extractPort_all_digits (ds : String) (h : ∀ c ∈ ds.data, c.isDigit) :
    aeflex.extractPort ds = ds := by
  unfold aeflex.extractPort
  rw [replacePortAux_all_digits ds.data h []]
  cases ds
  rfl

/-- extractPort keeps exactly the numeric prefix of a digits-slash-suffix
entry. -/
theorem extractPort_digits_slash (digits sufx : String) (ts : List Char)
    (hne : digits.data ≠ []) (hdig : ∀ c ∈ digits.data, c.isDigit)
    (hsuf : sufx.data = '/' :: ts) :
    aeflex.extractPort (digits ++ sufx) = digits := by
  unfold aeflex.extractPort
  rw [String.data_append, hsuf,
    replacePortAux_digits_slash ts digits.data hdig [] (Or.inr hne)]
  cases digits
  rfl

/-- Two suffixes of the same list with the same length are equal. -/
theorem suffix_eq_of_suffix_of_length {α : Type} {l l₁ l₂ : List α}
    (h₁ : l₁ <:+ l) (h₂ : l₂ <:+ l) (hlen : l₁.length = l₂.length) : l₁ = l₂ := by
  obtain ⟨t₁, ht₁⟩ := h₁
  obtain ⟨t₂, ht₂⟩ := h₂
  have h : t₁ ++ l₁ = t₂ ++ l₂ := ht₁.trans ht₂.symm
  have hlen2 : t₁.length = t₂.length := by
    have hl := congrArg List.length h
    simp only [List.length_append] at hl
    omega
  exact List.append_inj_right h hlen2

/-- An all-digits string has no suffix containing a slash. -/
theorem goHasSuffix_no_slash (fp suf : String) (hdig : ∀ c ∈ fp.data, c.isDigit)
    (hsuf : '/' ∈ suf.data) : aeflex.goHasSuffix fp suf = false := by
  unfold aeflex.goHasSuffix
  by_contra hcon
  have hb : (decide (suf.data <:+ fp.data)) = true := by
    cases hd : decide (suf.data <:+ fp.data) with
    | false => exact absurd hd hcon
    | true => rfl
  have hsfx : suf.data <:+ fp.data := of_decide_eq_true hb
  have hmem : '/' ∈ fp.data := hsfx.subset hsuf
  have : ('/' : Char).isDigit := hdig '/' hmem
  exact absurd this (by decide)

/-- Claim C5: for every emitted AppEngine target record, only the first entry
of the version's forwarded-ports list determines the output: the single target
address is the instance IP, a colon, and the numeric prefix of that first
entry; the protocol label is "udp" for a "/udp" suffix, "tcp" for a "/tcp"
suffix, and "both" for a bare numeric entry; and any further forwarded ports
are ignored. -/
theorem aeflex_target_from_first_forwarded_port
    (project : String) (service : aeflex.Service) (version : aeflex.Version)
    (inst : aeflex.Instance) (nw : aeflex.Network) (fp0 : String)
    (others : List String) (digits sufx : String)
    (hnet : version.network = some nw)
    (hports : nw.forwardedPorts = fp0 :: others)
    (hfp : fp0 = digits ++ sufx)
    (hne : digits.data ≠ [])
    (hdig : ∀ c ∈ digits.data, c.isDigit)
    (hsuf : sufx.data = [] ∨ ∃ ts, sufx.data = '/' :: ts) :
    (aeflex.getLabels project service version inst).targets =
      [inst.vmIp ++ ":" ++ digits] ∧
    (aeflex.goHasSuffix fp0 "/udp" = true →
      (aeflex.getLabels project service version inst).labels.lookup
        aeflex.aefLabelPublicProto = some "udp") ∧
    (aeflex.goHasSuffix fp0 "/tcp" = true →
      (aeflex.getLabels project service version inst).labels.lookup
        aeflex.aefLabelPublicProto = some "tcp") ∧
    (sufx = "" →
      (aeflex.getLabels project service version inst).labels.lookup
        aeflex.aefLabelPublicProto = some "both") ∧
    (∀ others' : List String,
      aeflex.getLabels project service
        { version with network := some { forwardedPorts := fp0 :: others' } } inst =
        aeflex.getLabels project service version inst) := by
  have hex : aeflex.extractPort fp0 = digits := by
    rcases hsuf with h0 | ⟨ts, hts⟩
    · have hsemp : sufx = "" := String.ext h0
      subst hsemp
      rw [hfp]
      have hde : digits ++ "" = digits := by simp
      rw [hde]
      exact extractPort_all_digits digits hdig
    · rw [hfp]
      exact extractPort_digits_slash digits sufx ts hne hdig hts
  have hread : ((version.network.map aeflex.Network.forwardedPorts).getD []).headD "" = fp0 := by
    simp [hnet, hports]
  have hk1 : (aeflex.aefLabelPublicProto == aeflex.aefLabelProject) = false := by decide
  have hk2 : (aeflex.aefLabelPublicProto == aeflex.aefLabelService) = false := by decide
  have hk3 : (aeflex.aefLabelPublicProto == aeflex.aefLabelVersion) = false := by decide
  have hk4 : (aeflex.aefLabelPublicProto == aeflex.aefLabelInstance) = false := by decide
  have hk5 : (aeflex.aefLabelPublicProto == aeflex.aefMaxTotalInstances) = false := by decide
  have hk6 : (aeflex.aefLabelPublicProto == aeflex.aefVMDebugEnabled) = false := by decide
  have hk7 : (aeflex.aefLabelPublicProto == aeflex.aefLabelPublicProto) = true := by decide
  have hlab : (aeflex.getLabels project service version inst).labels.lookup
      aeflex.aefLabelPublicProto =
      some (if aeflex.goHasSuffix fp0 "/udp" then "udp"
            else if aeflex.goHasSuffix fp0 "/tcp" then "tcp" else "both") := by
    simp only [aeflex.getLabels, hread]
    simp [List.lookup, hk1, hk2, hk3, hk4, hk5, hk6, hk7]
  refine ⟨?_, ?_, ?_, ?_, ?_⟩
  · simp only [aeflex.getLabels]
    rw [hread, hex]
  · intro h
    rw [hlab, h]
    simp
  · intro h
    have hudp : aeflex.goHasSuffix fp0 "/udp" = false := by
      by_contra hcon
      have hu : aeflex.goHasSuffix fp0 "/udp" = true := by
        cases hx : aeflex.goHasSuffix fp0 "/udp" with
        | false => exact absurd hx hcon
        | true => rfl
      simp only [aeflex.goHasSuffix, decide_eq_true_eq] at hu
      have ht : ("/tcp".data : List Char) <:+ fp0.data := by
        have := h
        simp only [aeflex.goHasSuffix, decide_eq_true_eq] at this
        exact this
      have heq := suffix_eq_of_suffix_of_length hu ht (by decide)
      exact absurd heq (by decide)
    rw [hlab, hudp, h]
    simp
  · intro h
    have hfpd : fp0 = digits := by
      rw [hfp, h]
      simp
    have hudp : aeflex.goHasSuffix fp0 "/udp" = false := by
      rw [hfpd]
      exact goHasSuffix_no_slash digits "/udp" hdig (by decide)
    have htcp : aeflex.goHasSuffix fp0 "/tcp" = false := by
      rw [hfpd]
      exact goHasSuffix_no_slash digits "/tcp" hdig (by decide)
    rw [hlab, hudp, htcp]
    simp
  · intro others'
    simp [aeflex.getLabels, hnet, hports]

/-- Witness for C5 at the repository's own test inventory: forwarded port
"9090/udp" yields target "192.168.0.2:9090" and protocol label "udp". -/
theorem aeflex_target_from_first_forwarded_port_witness :
    (aeflex.getLabels "fake-project" aeflex.demoService aeflex.demoVersion
      aeflex.demoInstance).targets = ["192.168.0.2:9090"] ∧
    (aeflex.getLabels "fake-project" aeflex.demoService aeflex.demoVersion
      aeflex.demoInstance).labels.lookup aeflex.aefLabelPublicProto = some "udp" := by
  have h := aeflex_target_from_first_forwarded_port "fake-project" aeflex.demoService
    aeflex.demoVersion aeflex.demoInstance { forwardedPorts := ["9090/udp"] }
    "9090/udp" [] "9090" "/udp" rfl rfl rfl (by decide) (by decide)
    (Or.inr ⟨['u', 'd', 'p'], rfl⟩)
  exact ⟨h.1, h.2.1 (by decide)⟩

/-- Claim C6: during cluster-federation discovery a service produces a target
only if its "gke-prometheus-federation/scrape" annotation is exactly "true";
a service carrying any other value — or no such annotation, which reads as
the empty string — is excluded, and the cluster result is as if that service
had not been listed at all. -/
theorem gke_annotation_gate (zoneName clusterName : String) (svc : gke.KubeService)
    (pre post : List gke.KubeService)
    (h : gke.annotGet svc "gke-prometheus-federation/scrape" ≠ "true") :
    gke.checkCluster (Except.ok (pre ++ svc :: post)) zoneName clusterName =
      gke.checkCluster (Except.ok (pre ++ post)) zoneName clusterName := by
  have go : ∀ (l : List gke.KubeService) (configs : List discovery.StaticConfig),
      gke.checkClusterGo zoneName clusterName (l ++ svc :: post) configs =
        gke.checkClusterGo zoneName clusterName (l ++ post) configs := by
    intro l
    induction l with
    | nil =>
      intro configs
      simp [gke.checkClusterGo, h]
    | cons p rest ih =>
      intro configs
      by_cases hp : gke.annotGet p "gke-prometheus-federation/scrape" = "true"
      · cases hf : gke.findTargetAndLabels zoneName clusterName p with
        | error f => simp [gke.checkClusterGo, hp, hf]
        | ok o =>
          cases o with
          | none => simp [gke.checkClusterGo, hp, hf, ih]
          | some t => simp [gke.checkClusterGo, hp, hf, ih]
      · simp [gke.checkClusterGo, hp, ih]
  simp [gke.checkCluster, go]

/-- Witness for C6: a service whose annotation reads "false" contributes
nothing to the cluster result. -/
theorem gke_annotation_gate_witness :
    gke.checkCluster
        (Except.ok [gke.demoOptOutService, gke.demoExternalIPService])
        "us-central1-z" "fake-cluster" =
      gke.checkCluster (Except.ok [gke.demoExternalIPService])
        "us-central1-z" "fake-cluster" :=
  gke_annotation_gate "us-central1-z" "fake-cluster" gke.demoOptOutService
    [] [gke.demoExternalIPService] (by decide)

/-- A target string assembled with a colon is never empty. -/
theorem append_colon_ne_empty (a b : String) : a ++ ":" ++ b ≠ "" := by
  intro h
  have hd : (a ++ ":" ++ b).data = [] := by rw [h]
  rw [String.data_append, String.data_append] at hd
  have hcolon : (":" : String).data = [':'] := rfl
  rw [hcolon] at hd
  simp at hd

/-- Claim C7: an annotated service with at least one external IP and at least
one port resolves to externalIP[0]:port[0] with the ingress entries never
consulted; a service satisfying neither the external-IP condition nor the
ingress condition yields no target and no error, and the remaining services
are still processed. -/
theorem gke_address_resolution_priority (zoneName clusterName : String)
    (svc : gke.KubeService) :
    (∀ (ip : String) (ips : List String) (p : gke.ServicePort)
        (ps : List gke.ServicePort),
      svc.externalIPs = ip :: ips → svc.ports = p :: ps →
      gke.findTargetAndLabels zoneName clusterName svc = Except.ok (some
        { targets := [ip ++ ":" ++ toString p.port]
          labels := [("service", svc.name), ("cluster", clusterName),
            ("zone", zoneName)] }) ∧
      ∀ ing2 : List gke.LoadBalancerIngress,
        gke.findTargetAndLabels zoneName clusterName { svc with ingress := ing2 } =
          gke.findTargetAndLabels zoneName clusterName svc) ∧
    ((svc.externalIPs = [] ∨ svc.ports = []) → svc.ingress = [] →
      gke.findTargetAndLabels zoneName clusterName svc = Except.ok none ∧
      ∀ (rest : List gke.KubeService) (configs : List discovery.StaticConfig),
        gke.checkClusterGo zoneName clusterName (svc :: rest) configs =
          gke.checkClusterGo zoneName clusterName rest configs) := by
  constructor
  · intro ip ips p ps hext hp
    have key : ∀ s2 : gke.KubeService, s2.externalIPs = ip :: ips →
        s2.ports = p :: ps → s2.name = svc.name →
        gke.findTargetAndLabels zoneName clusterName s2 = Except.ok (some
          { targets := [ip ++ ":" ++ toString p.port]
            labels := [("service", svc.name), ("cluster", clusterName),
              ("zone", zoneName)] }) := by
      intro s2 h1 h2 h3
      simp [gke.findTargetAndLabels, gke.resolveTarget, h1, h2, h3,
        append_colon_ne_empty]
    constructor
    · exact key svc hext hp rfl
    · intro ing2
      rw [key svc hext hp rfl, key { svc with ingress := ing2 } hext hp rfl]
  · intro hno hing
    have ht : gke.resolveTarget svc = Except.ok "" := by
      rcases hno with h0 | h0
      · simp [gke.resolveTarget, h0, hing]
      · simp [gke.resolveTarget, h0, hing]
    have hfind : gke.findTargetAndLabels zoneName clusterName svc = Except.ok none := by
      simp [gke.findTargetAndLabels, ht]
    refine ⟨hfind, ?_⟩
    intro rest configs
    by_cases ha : gke.annotGet svc "gke-prometheus-federation/scrape" = "true"
    · simp [gke.checkClusterGo, ha, hfind]
    · simp [gke.checkClusterGo, ha]

/-- Witness for C7: the external-IP service of the gke test resolves to its
external IP even with an ingress entry present, and a bare annotated service
yields no target. -/
theorem gke_address_resolution_priority_witness :
    gke.findTargetAndLabels "us-central1-z" "fake-cluster"
        gke.demoExternalIPService =
      Except.ok (some
        { targets := ["192.168.1.1:1122"]
          labels := [("service", "fake-service"), ("cluster", "fake-cluster"),
            ("zone", "us-central1-z")] }) ∧
    gke.findTargetAndLabels "us-central1-z" "fake-cluster" gke.demoEmptyService =
      Except.ok none := by
  have h1 := ((gke_address_resolution_priority "us-central1-z" "fake-cluster"
    gke.demoExternalIPService).1 "192.168.1.1" [] { port := 1122 } [] rfl rfl).1
  have h2 := ((gke_address_resolution_priority "us-central1-z" "fake-cluster"
    gke.demoEmptyService).2 (Or.inl rfl) rfl).1
  exact ⟨h1, h2⟩

/-- Claim C8: the ingress branch of address resolution reads Spec.Ports[0]
with no bounds check, so an annotated service with a load-balancer ingress
entry but an empty ports list makes the access go out of bounds — a Go
runtime fault that aborts the pass — instead of evaluating totally. -/
theorem gke_ingress_branch_reads_first_port_out_of_bounds :
    gke.findTargetAndLabels "us-central1-z" "fake-cluster"
        gke.demoIngressNoPortsService =
      Except.error gke.Fault.indexOutOfRange ∧
    gke.checkCluster (Except.ok [gke.demoIngressNoPortsService])
        "us-central1-z" "fake-cluster" =
      gke.GoRes.fault gke.Fault.indexOutOfRange :=
  ⟨rfl, rfl⟩

/-- Claim C9: the HTTP mirror provider's Discover returns an error exactly
when the transport request fails, the response status is not 200, the body
cannot be read, or the body does not decode as a JSON array of TargetRecord;
otherwise it returns exactly the decoded records. -/
theorem web_discover_error_characterization
    (fetch : Except String web.HTTPResponse)
    (unmarshal : String → Except String (List discovery.StaticConfig)) :
    ((∃ e, web.Discover fetch unmarshal = Except.error e) ↔
      (∃ e, fetch = Except.error e) ∨
      (∃ resp, fetch = Except.ok resp ∧
        (resp.statusCode ≠ 200 ∨
         (∃ e, resp.body = Except.error e) ∨
         (∃ data e, resp.body = Except.ok data ∧
           unmarshal data = Except.error e)))) ∧
    (∀ resp data configs, fetch = Except.ok resp → resp.statusCode = 200 →
      resp.body = Except.ok data → unmarshal data = Except.ok configs →
      web.Discover fetch unmarshal = Except.ok configs) := by
  constructor
  · cases fetch with
    | error e => simp [web.Discover]
    | ok resp =>
      by_cases hs : resp.statusCode = 200
      · cases hb : resp.body with
        | error e => simp [web.Discover, hs, hb]
        | ok data =>
          cases hu : unmarshal data with
          | error e => simp [web.Discover, hs, hb, hu]
          | ok cfgs => simp [web.Discover, hs, hb, hu]
      · simp [web.Discover, hs]
  · intro resp data configs hf hs hb hu
    subst hf
    simp [web.Discover, hs, hb, hu]

/-- Witness for C9: a 200 response whose body decodes successfully returns
exactly the decoded records. -/
theorem web_discover_error_characterization_witness :
    web.Discover (Except.ok { statusCode := 200, body := Except.ok "[]" })
      (fun _ => Except.ok []) = Except.ok [] :=
  (web_discover_error_characterization
    (Except.ok { statusCode := 200, body := Except.ok "[]" })
    (fun _ => Except.ok [])).2
    { statusCode := 200, body := Except.ok "[]" } "[]" [] rfl rfl rfl rfl

/-- runOnce never touches a file that no registration names. -/
theorem runOnce_untouched (marshal : List discovery.StaticConfig → String)
    (writable : String → Bool) :
    ∀ (regs : List manager.Registration) (fs : manager.FS) (f : String),
      (∀ r ∈ regs, r.output ≠ f) →
      manager.runOnce marshal writable regs fs f = fs f := by
  intro regs
  induction regs with
  | nil => intro fs f _; rfl
  | cons r rest ih =>
    intro fs f h
    have hr : r.output ≠ f := h r (by simp)
    have hrest : ∀ x ∈ rest, x.output ≠ f := fun x hx => h x (by simp [hx])
    cases hd : r.discover with
    | error e =>
      simp only [manager.runOnce, hd]
      exact ih fs f hrest
    | ok configs =>
      simp only [manager.runOnce, hd]
      rw [ih _ f hrest]
      by_cases hw : writable r.output
      · simp [manager.writeConfigToFile, hw, Ne.symm hr]
      · simp [manager.writeConfigToFile, hw]

/-- Claim C2: in one tick of Manager.Run over registered pairs with distinct
destinations, a provider whose Discover errors gets no write — its previous
on-disk content survives the pass — while every other registered provider is
still processed and, when its Discover succeeds and its destination is
writable, ends the pass with its freshly marshalled configs on disk. -/
theorem manager_run_failure_isolation
    (marshal : List discovery.StaticConfig → String) (writable : String → Bool) :
    ∀ (regs : List manager.Registration) (fs : manager.FS),
      List.Pairwise (fun a b => a.output ≠ b.output) regs →
      ∀ (i : Nat) (hi : i < regs.length),
        ((∃ e, (regs.get ⟨i, hi⟩).discover = Except.error e) →
          manager.runOnce marshal writable regs fs (regs.get ⟨i, hi⟩).output =
            fs (regs.get ⟨i, hi⟩).output) ∧
        (∀ configs, (regs.get ⟨i, hi⟩).discover = Except.ok configs →
          writable (regs.get ⟨i, hi⟩).output = true →
          manager.runOnce marshal writable regs fs (regs.get ⟨i, hi⟩).output =
            some (marshal configs)) := by
  intro regs
  induction regs with
  | nil => intro fs _ i hi; exact absurd hi (by simp)
  | cons r rest ih =>
    intro fs hdist i hi
    have hhead : ∀ b ∈ rest, r.output ≠ b.output := (List.pairwise_cons.mp hdist).1
    have htail : List.Pairwise (fun a b => a.output ≠ b.output) rest :=
      (List.pairwise_cons.mp hdist).2
    cases i with
    | zero =>
      have hget0 : (r :: rest).get ⟨0, hi⟩ = r := rfl
      rw [hget0]
      have hrest2 : ∀ x ∈ rest, x.output ≠ r.output :=
        fun x hx => Ne.symm (hhead x hx)
      constructor
      · rintro ⟨e, he⟩
        simp only [manager.runOnce, he]
        exact runOnce_untouched marshal writable rest fs r.output hrest2
      · intro configs hok hw
        simp only [manager.runOnce, hok]
        rw [runOnce_untouched marshal writable rest _ r.output hrest2]
        simp [manager.writeConfigToFile, hw]
    | succ j =>
      have hj : j < rest.length := by simpa using hi
      have hget : (r :: rest).get ⟨j + 1, hi⟩ = rest.get ⟨j, hj⟩ := rfl
      rw [hget]
      have hout : r.output ≠ (rest.get ⟨j, hj⟩).output :=
        hhead _ (rest.get_mem j hj)
      cases hd : r.discover with
      | error e =>
        simp only [manager.runOnce, hd]
        exact ih fs htail j hj
      | ok configs =>
        simp only [manager.runOnce, hd]
        have hfs1 : (manager.writeConfigToFile marshal writable configs
            r.output fs).1 (rest.get ⟨j, hj⟩).output =
            fs (rest.get ⟨j, hj⟩).output := by
          by_cases hw : writable r.output
          · simp only [manager.writeConfigToFile, hw, if_true]
            rw [if_neg (Ne.symm hout)]
          · simp [manager.writeConfigToFile, hw]
        have H := ih (manager.writeConfigToFile marshal writable configs
          r.output fs).1 htail j hj
        constructor
        · intro hex
          rw [H.1 hex, hfs1]
        · intro cfgs hok hw
          exact H.2 cfgs hok hw

/-- Witness for C2: with one failing and one succeeding registration, the
failing destination keeps its previous (absent) content and the succeeding
destination receives the marshalled configs. -/
theorem manager_run_failure_isolation_witness :
    manager.runOnce (fun _ => "[]") (fun _ => true)
      [manager.demoFailReg, manager.demoOkReg] (fun _ => none) "fail.json" =
      none ∧
    manager.runOnce (fun _ => "[]") (fun _ => true)
      [manager.demoFailReg, manager.demoOkReg] (fun _ => none) "ok.json" =
      some "[]" := by
  have hdist : List.Pairwise (fun a b => a.output ≠ b.output)
      [manager.demoFailReg, manager.demoOkReg] := by
    refine List.Pairwise.cons ?_ (List.Pairwise.cons ?_ List.Pairwise.nil)
    · intro b hb
      have hb2 : b = manager.demoOkReg := by simpa using hb
      rw [hb2]
      decide
    · intro b hb
      exact absurd hb (by simp)
  have h0 := manager_run_failure_isolation (fun _ => "[]") (fun _ => true)
    [manager.demoFailReg, manager.demoOkReg] (fun _ => none) hdist 0 (by decide)
  have h1 := manager_run_failure_isolation (fun _ => "[]") (fun _ => true)
    [manager.demoFailReg, manager.demoOkReg] (fun _ => none) hdist 1 (by decide)
  exact ⟨h0.1 ⟨"Failed to discover", rfl⟩, h1.2 [] rfl rfl⟩

/-- A pass over n providers has n events. -/
theorem passEvents_length (n : Nat) : (manager.passEvents n).length = n := by
  simp [manager.passEvents]

/-- The j-th event of a pass is the j-th provider invocation. -/
theorem passEvents_get (n j : Nat) (h : j < n) :
    (manager.passEvents n).get? j = some (manager.MgrEvent.discovered j) := by
  simp [manager.passEvents, List.getElem?_map, List.getElem?_range, h]

/-- An interval wait is not part of a pass. -/
theorem waited_not_mem_passEvents (n : Nat) :
    manager.MgrEvent.waited ∉ manager.passEvents n := by
  simp [manager.passEvents]

/-- Claim C10: Manager.Run runs a complete discovery-and-write pass over all
registered pairs as soon as it is invoked, before the first interval wait,
and every interval wait in the trace is immediately preceded by the events of
a complete pass — the wait happens only between passes. -/
theorem manager_run_first_pass_before_wait (n : Nat) :
    ∀ ticks : Nat,
      (manager.runTrace n ticks).take n = manager.passEvents n ∧
      (∀ k, (manager.runTrace n ticks).get? k = some manager.MgrEvent.waited →
        n ≤ k ∧ ∀ j, j < n →
          (manager.runTrace n ticks).get? (k - n + j) =
            some (manager.MgrEvent.discovered j)) := by
  intro ticks
  induction ticks with
  | zero =>
    constructor
    · show (manager.passEvents n).take n = manager.passEvents n
      rw [List.take_of_length_le (by rw [passEvents_length])]
    · intro k hk
      exact absurd (List.get?_mem hk) (waited_not_mem_passEvents n)
  | succ t ih =>
    have hlen : (manager.passEvents n).length = n := passEvents_length n
    constructor
    · have h := List.take_left (manager.passEvents n)
        (manager.MgrEvent.waited :: manager.runTrace n t)
      rw [hlen] at h
      exact h
    · intro k hk
      rcases lt_trichotomy k n with hlt | heq | hgt
      · exfalso
        rw [show manager.runTrace n (t + 1) = manager.passEvents n ++
            manager.MgrEvent.waited :: manager.runTrace n t from rfl,
          List.get?_append (by rw [hlen]; exact hlt)] at hk
        exact absurd (List.get?_mem hk) (waited_not_mem_passEvents n)
      · subst heq
        refine ⟨Nat.le_refl k, ?_⟩
        intro j hj
        have hidx : k - k + j = j := by omega
        rw [hidx, show manager.runTrace k (t + 1) = manager.passEvents k ++
            manager.MgrEvent.waited :: manager.runTrace k t from rfl,
          List.get?_append (by rw [passEvents_length]; exact hj)]
        exact passEvents_get k j hj
      · have hk' : (manager.runTrace n t).get? (k - (n + 1)) =
            some manager.MgrEvent.waited := by
          rw [show manager.runTrace n (t + 1) = manager.passEvents n ++
              manager.MgrEvent.waited :: manager.runTrace n t from rfl,
            List.get?_append_right (by rw [hlen]; omega), hlen] at hk
          have hm : k - n = (k - (n + 1)) + 1 := by omega
          rw [hm] at hk
          simpa using hk
        have IH := ih.2 (k - (n + 1)) hk'
        have hnk : n ≤ k - (n + 1) := IH.1
        refine ⟨by omega, ?_⟩
        intro j hj
        have IH2 := IH.2 j hj
        rw [show manager.runTrace n (t + 1) = manager.passEvents n ++
            manager.MgrEvent.waited :: manager.runTrace n t from rfl,
          List.get?_append_right (by rw [hlen]; omega), hlen]
        have hm : k - n + j - n = ((k - (n + 1)) - n + j) + 1 := by omega
        rw [hm]
        simpa using IH2

/-- Witness for C10 with two registered providers and one tick: the trace
starts with the full pass, and the wait at position 2 is preceded by both
provider invocations. -/
theorem manager_run_first_pass_before_wait_witness :
    (manager.runTrace 2 1).take 2 = manager.passEvents 2 ∧
    2 ≤ 2 ∧
    (manager.runTrace 2 1).get? (2 - 2 + 1) =
      some (manager.MgrEvent.discovered 1) := by
  have h := manager_run_first_pass_before_wait 2 1
  have h2 := h.2 2 (by decide)
  exact ⟨h.1, h2.1, h2.2 1 (by decide)⟩
